import Mathlib

/-!
A shallow embedding of the data-cleaning and forecasting core of the
AM_Apprenticeship repository (files `src/data_utils.py`, `src/wsl_utils.py`,
`src/modelling.py` and `config/projects/wsl_config.py`), together with
theorems settling the specification claims about that code.

Modelling conventions:
* A pandas `DataFrame` is a `Table`: a list of column names plus a list of
  rows, each row a list of `Cell`s aligned with the column list.
* A cell is a string, a rational number, or null (`NaN` / `pd.NA`).
  Machine floats are modelled by `ℚ`; the IEEE non-finite values needed for
  the metrics claim get their own type `FP` below.
* Code that can raise a Python exception (`KeyError`, `IndexError`) is
  embedded as an `Option`-returning function; `none` models a raised
  exception.
* String operations are re-implemented over `List Char` by structural
  recursion so that every definition evaluates inside the kernel.
-/

/-! ### String helpers (List Char based, all structural recursion) -/

/-- One step bound by fuel: replace every occurrence of the pattern `sub`
by `repl`, scanning left to right, as Python `str.replace` does.  The fuel
is always instantiated with the length of the scanned list, which suffices
because every step consumes at least one character. -/
def replaceFuel (sub repl : List Char) : Nat → List Char → List Char
  | 0, cs => cs
  | _ + 1, [] => []
  | f + 1, c :: cs =>
    if sub ≠ [] ∧ sub.isPrefixOf (c :: cs) then
      repl ++ replaceFuel sub repl f (List.drop sub.length (c :: cs))
    else
      c :: replaceFuel sub repl f cs

/-- Python `s.replace(sub, repl)` (non-regex, every occurrence). -/
def strReplace (s sub repl : String) : String :=
  String.mk (replaceFuel sub.toList repl.toList s.toList.length s.toList)

/-- Drop whitespace from both ends of a character list (Python `str.strip`). -/
def trimChars (cs : List Char) : List Char :=
  ((cs.dropWhile Char.isWhitespace).reverse.dropWhile Char.isWhitespace).reverse

/-- Python `s.strip()`. -/
def trimStr (s : String) : String :=
  String.mk (trimChars s.toList)

/-- Split a character list at the first occurrence of the pattern `sub`:
returns the part before it and, when the pattern occurs, the part after it.
Models Python `s.split(sub, 1)` for a non-empty pattern. -/
def splitFirstFuel (sub : List Char) : Nat → List Char → List Char × Option (List Char)
  | 0, cs => (cs, none)
  | _ + 1, [] => ([], none)
  | f + 1, c :: cs =>
    if sub ≠ [] ∧ sub.isPrefixOf (c :: cs) then
      ([], some (List.drop sub.length (c :: cs)))
    else
      let r := splitFirstFuel sub f cs
      (c :: r.1, r.2)

/-- Python `s.split(sub, 1)`: the head part and, if the separator occurs,
the remainder. -/
def splitFirstStr (s sub : String) : String × Option String :=
  let r := splitFirstFuel sub.toList s.toList.length s.toList
  (String.mk r.1, r.2.map String.mk)

/-- Split a character list on every occurrence of a single character
(Python `s.split(c)` for a one-character separator). -/
def splitChar (c : Char) : List Char → List (List Char)
  | [] => [[]]
  | a :: as =>
    let r := splitChar c as
    if a = c then [] :: r
    else
      match r with
      | [] => [[a]]
      | g :: gs => (a :: g) :: gs

/-! ### Cells and tables -/

/-- One dataframe cell: a Python string, a numeric value (floats modelled
by `ℚ`), or a null marker (`NaN` / `pd.NA`). -/
inductive Cell where
  | str (s : String)
  | num (q : ℚ)
  | null
deriving DecidableEq

/-- Python `str(value)` as pandas `astype(str)` applies it to a cell;
`str(np.nan)` is `"nan"`. -/
def cellToStr : Cell → String
  | .str s => s
  | .num q => toString q
  | .null => "nan"

/-- A dataframe: named columns and rows of cells aligned with the column
list. -/
structure Table where
  cols : List String
  rows : List (List Cell)
deriving DecidableEq

/-- A table is well formed when every row has exactly one cell per column. -/
def Table.WF (t : Table) : Prop :=
  ∀ r ∈ t.rows, r.length = t.cols.length

/-- The cell of row `r` in column `c` (columns named by `cols`). -/
def getCellR (cols : List String) (r : List Cell) (c : String) : Cell :=
  r.getD (cols.indexOf c) Cell.null

/-- The column `c` of a table, as the list of its cells in row order. -/
def getColumn (t : Table) (c : String) : List Cell :=
  t.rows.map (fun r => getCellR t.cols r c)

/-- `df[c] = vals`: overwrite the column when it exists, otherwise append
it on the right, as pandas column assignment does. -/
def setColumn (t : Table) (c : String) (vals : List Cell) : Table :=
  if c ∈ t.cols then
    { cols := t.cols
      rows := (t.rows.zip vals).map (fun rv => rv.1.set (t.cols.indexOf c) rv.2) }
  else
    { cols := t.cols ++ [c]
      rows := (t.rows.zip vals).map (fun rv => rv.1 ++ [rv.2]) }

/-! ### `src/data_utils.py` -/

/-- `remove_string_parts(df, column, substring)`: coerce the column to text
and delete every occurrence of the literal substring.  Reading a missing
column raises `KeyError`, modelled by `none`. -/
def remove_string_parts (t : Table) (column sub : String) : Option Table :=
  if column ∈ t.cols then
    some (setColumn t column
      ((getColumn t column).map (fun c => Cell.str (strReplace (cellToStr c) sub ""))))
  else none

/-- `convert_column_names(df, columns_map)`: `df.rename(columns=...)`.
Every column name found as a key of the mapping is replaced by its value;
other columns pass through; keys naming no column have no effect. -/
def convert_column_names (t : Table) (m : List (String × String)) : Table :=
  { cols := t.cols.map (fun c => (m.lookup c).getD c), rows := t.rows }

/-- The text of the generated id of one row: the text forms of the listed
columns joined by `"_"`, in the given column order
(`df[columns].astype(str).agg("_".join, axis=1)` for one row). -/
def uidValue (cols : List String) (r : List Cell) (columns : List String) : String :=
  String.intercalate "_" (columns.map (fun c => cellToStr (getCellR cols r c)))

/-- `create_unique_id(df, columns, new_column)`: `df[columns]` raises
`KeyError` when any listed column is missing (modelled by `none`);
otherwise the new column holds the per-row underscore join. -/
def create_unique_id (t : Table) (columns : List String) (newCol : String) : Option Table :=
  if columns.all (fun c => decide (c ∈ t.cols)) then
    some (setColumn t newCol (t.rows.map (fun r => Cell.str (uidValue t.cols r columns))))
  else none

/-- Digits of a numeral, most significant first, to a natural number. -/
def digitsToNat (cs : List Char) : Nat :=
  cs.foldl (fun n c => n * 10 + (c.toNat - 48)) 0

/-- Split at the first occurrence of either of two characters (used to peel
the exponent marker `e`/`E` off a numeric literal). -/
def splitAtTwoChars (a b : Char) : List Char → List Char × Option (List Char)
  | [] => ([], none)
  | c :: rest =>
    if c = a ∨ c = b then ([], some rest)
    else
      let r := splitAtTwoChars a b rest
      (c :: r.1, r.2)

/-- Split at the first occurrence of one character. -/
def splitAtChar (a : Char) : List Char → List Char × Option (List Char)
  | [] => ([], none)
  | c :: rest =>
    if c = a then ([], some rest)
    else
      let r := splitAtChar a rest
      (c :: r.1, r.2)

/-- Leading sign of a numeric literal. -/
def parseSign : List Char → Int × List Char
  | '-' :: rest => (-1, rest)
  | '+' :: rest => (1, rest)
  | cs => (1, cs)

/-- The unsigned mantissa `digits[.digits]` of a numeric literal; at least
one digit is required, as in the pandas numeric parser. -/
def parseMantissa (cs : List Char) : Option ℚ :=
  let p := splitAtChar '.' cs
  let ip := p.1
  let fp := (p.2).getD []
  if ip.all Char.isDigit ∧ fp.all Char.isDigit ∧ (ip ≠ [] ∨ fp ≠ []) then
    some ((digitsToNat (ip ++ fp) : ℚ) / (10 : ℚ) ^ fp.length)
  else none

/-- The decimal-literal fragment of the `pd.to_numeric` parser:
`[sign]digits[.digits][(e|E)[sign]digits]`.  Anything else fails
(IEEE `inf`, which `ℚ` cannot hold, is conflated with the failure case;
`"nan"` failing matches `NaN` becoming null). -/
def parseRat (s : String) : Option ℚ :=
  let sg := parseSign s.toList
  let me := splitAtTwoChars 'e' 'E' sg.2
  match me.2 with
  | none => (parseMantissa me.1).map (fun q => (sg.1 : ℚ) * q)
  | some ecs =>
    let esg := parseSign ecs
    if esg.2 ≠ [] ∧ esg.2.all Char.isDigit then
      (parseMantissa me.1).map
        (fun q => (sg.1 : ℚ) * q * (10 : ℚ) ^ ((esg.1) * (digitsToNat esg.2 : Int)))
    else none

/-- Comma stripping then whitespace stripping, as `convert_to_numeric`
applies to the text form of each cell before parsing. -/
def pandasNumClean (s : String) : String :=
  trimStr (String.mk (replaceFuel [','] [] s.toList.length s.toList))

/-- `pd.to_numeric(value, errors="coerce")` on an already-cleaned string:
a number on success, null on failure. -/
def toNumericCell (s : String) : Cell :=
  match parseRat s with
  | some q => .num q
  | none => .null

/-- The per-cell action of `convert_to_numeric`: text form, comma strip,
whitespace strip, coercing parse. -/
def coerceCell (c : Cell) : Cell :=
  toNumericCell (pandasNumClean (cellToStr c))

/-- `convert_to_numeric(df, columns)`: for each listed column in order,
strip separators and whitespace from the text form of every cell and parse
it, unparsable values becoming null.  Reading a missing listed column
raises `KeyError`, modelled by `none`. -/
def convert_to_numeric (t : Table) (columns : List String) : Option Table :=
  columns.foldlM
    (fun acc col =>
      if col ∈ acc.cols then
        some (setColumn acc col ((getColumn acc col).map coerceCell))
      else none)
    t

/-! ### `config/projects/wsl_config.py` -/

/-- `SEASON_COL_MAP` from the configuration file. -/
def SEASON_COL_MAP : List (String × String) :=
  [("Rk", "Rank"), ("Squad", "Club"), ("MP", "Matches"), ("W", "Wins"),
   ("D", "Draws"), ("L", "Losses"), ("GF", "Goals_For"), ("GA", "Goals_Against"),
   ("GD", "Goal_Difference"), ("Pts", "Points"), ("xG", "Expected_Goals"),
   ("xGA", "Expected_Goals_Allowed"), ("xGD", "Expected_Goals_Difference"),
   ("xGD/90", "Expected_Goals_Difference_Per_90_Mins"), ("Pts/MP", "Points_Per_Match"),
   ("Attendance", "Attendance"), ("Top Team Scorer", "Top_Scorer"),
   ("Goalkeeper", "Goalkeeper")]

/-- `NATIONALITY_COL_MAP` from the configuration file. -/
def NATIONALITY_COL_MAP : List (String × String) :=
  [("Rk", "Rank"), ("Nation", "Nationality"), ("# Players", "Num_Players"),
   ("Min", "Minutes_Played"), ("List", "List_of_Players")]

/-- `EURO_COUNTRIES` from the configuration file.  In the Python source the
entries `'Belgium'` and `'Norway'` are adjacent string literals with no
comma between them, so Python concatenates them into the single element
`'BelgiumNorway'`; the embedding reproduces that list faithfully. -/
def EURO_COUNTRIES : List String :=
  ["England", "Wales", "Scotland", "Republic_of_Ireland", "Netherlands",
   "Germany", "Sweden", "Northern_Ireland", "BelgiumNorway", "Denmark",
   "Switzerland", "Austria", "Finland", "France", "Iceland", "Portugal",
   "Poland", "Spain", "Czech_Republic", "Greece", "Italy", "Russia",
   "Slovenia", "Serbia", "Hungary"]

/-! ### `src/wsl_utils.py` -/

/-- `nationality_group(row)`: the three-way label from the row's
`Nationality` and `euro_flag` cells. -/
def nationality_group (nat euroFlag : Cell) : String :=
  if nat = Cell.str "England" then "English"
  else if euroFlag = Cell.num 1 then "European (excl. Eng)"
  else "Non-European"

/-- `x in EURO_COUNTRIES` for a cell value `x`; a null (`NaN`) cell is not
a member. -/
def cellInEuro : Cell → Bool
  | .str s => decide (s ∈ EURO_COUNTRIES)
  | _ => false

/-- The per-cell body of `df['Nationality'].apply(lambda x: 1 if x in
EURO_COUNTRIES else 0)`. -/
def euroFlagCell (c : Cell) : Cell :=
  .num (if cellInEuro c then 1 else 0)

/-- `f'{start_year}_{end_year}'`. -/
def seasonString (startYear endYear : Int) : String :=
  toString startYear ++ "_" ++ toString endYear

/-- `.str.replace(sub, repl)` on one cell: non-string cells become null, as
the pandas `.str` accessor yields `NaN` on non-strings. -/
def strCellReplace (sub repl : String) : Cell → Cell
  | .str s => .str (strReplace s sub repl)
  | _ => .null

/-- `x.split(' - ', 1)` on one `Top_Scorer` cell: name part and optional
goal-count part; a non-string cell yields nulls. -/
def splitScorer : Cell → Cell × Cell
  | .str s =>
    match splitFirstStr s " - " with
    | (a, some b) => (.str a, .str b)
    | (a, none) => (.str a, .null)
  | _ => (.null, .null)

/-- The scorer-name normalisation
`', '.join([n.strip().replace(' ', '_') for n in x.split(',')])`,
applied only when the cell is not null. -/
def normalizeScorerName : Cell → Cell
  | .str s =>
    .str (String.intercalate ", "
      ((splitChar ',' s.toList).map
        (fun cs => String.mk ((trimChars cs).map (fun ch => if ch = ' ' then '_' else ch)))))
  | c => c

/-- `.str.split(' ', 1).str[1].str.replace(' ', '_')` on one `Nation`
cell: drop the leading confederation token; a value with no space yields
null (`str[1]` of a one-part split), as does a non-string cell. -/
def cleanNationCell : Cell → Cell
  | .str s =>
    match splitFirstStr s " " with
    | (_, some rest) => .str (strReplace rest " " "_")
    | (_, none) => .null
  | _ => .null

/-- The non-empty body of `process_wsl_data` (steps 1-6 after the guard);
`none` models a raised exception. -/
def wslCleanBody (t : Table) (startYear endYear : Int) : Option Table :=
  (remove_string_parts t "Squad" "Club Crest ").bind fun t1 =>
  (if "Squad" ∈ t1.cols then
      some (setColumn t1 "Squad" ((getColumn t1 "Squad").map (strCellReplace " " "_")))
    else none).bind fun t2 =>
  let t3 := setColumn t2 "season"
    (t2.rows.map (fun _ => Cell.str (seasonString startYear endYear)))
  (create_unique_id t3 ["Squad", "season"] "unique_ID").bind fun t4 =>
  let t5 := convert_column_names t4 SEASON_COL_MAP
  (if "Top_Scorer" ∈ t5.cols then
      let pairs := (getColumn t5 "Top_Scorer").map splitScorer
      let t6 := setColumn t5 "Top_Scorer_Name" (pairs.map Prod.fst)
      let hasTwo := pairs.any (fun p => decide (p.2 ≠ Cell.null))
      let t7 := setColumn t6 "Top_Scorer_Goals"
        (if hasTwo then pairs.map Prod.snd else pairs.map (fun _ => Cell.null))
      (convert_to_numeric t7 ["Top_Scorer_Goals"]).map fun t8 =>
        setColumn t8 "Top_Scorer_Name"
          ((getColumn t8 "Top_Scorer_Name").map normalizeScorerName)
    else
      some (setColumn
        (setColumn t5 "Top_Scorer_Name" (t5.rows.map fun _ => Cell.null))
        "Top_Scorer_Goals" (t5.rows.map fun _ => Cell.null))).bind fun t9 =>
  convert_to_numeric t9 ["Attendance"]

/-- `process_wsl_data(df, start_year, end_year)`.  The outer `Option`
models exception-freedom of the call; the inner `Option Table` is the
Python value (`None` or a dataframe).  An absent input or a table with an
empty axis short-circuits through the guard unchanged. -/
def process_wsl_data (df : Option Table) (startYear endYear : Int) :
    Option (Option Table) :=
  match df with
  | none => some none
  | some t =>
    if t.rows.isEmpty || t.cols.isEmpty then some (some t)
    else (wslCleanBody t startYear endYear).map some

/-- The non-empty body of `process_nationality_data` (steps 1-7 after the
guard); `none` models a raised exception. -/
def natCleanBody (t : Table) (startYear endYear : Int) : Option Table :=
  (if "Nation" ∈ t.cols then
      some (setColumn t "Nation"
        ((getColumn t "Nation").map (fun c => Cell.str (cellToStr c))))
    else none).bind fun t1 =>
  let t2 := setColumn t1 "Nation" ((getColumn t1 "Nation").map cleanNationCell)
  let t3 := convert_column_names t2 NATIONALITY_COL_MAP
  let t4 := setColumn t3 "season"
    (t3.rows.map fun _ => Cell.str (seasonString startYear endYear))
  (create_unique_id t4 ["season", "Rank"] "Season_Rank").bind fun t5 =>
  (convert_to_numeric t5 ["Num_Players", "Minutes_Played"]).bind fun t6 =>
  (if "Nationality" ∈ t6.cols then
      some (setColumn t6 "euro_flag" ((getColumn t6 "Nationality").map euroFlagCell))
    else none).bind fun t7 =>
  some (setColumn t7 "group" (t7.rows.map fun r =>
    Cell.str (nationality_group (getCellR t7.cols r "Nationality")
      (getCellR t7.cols r "euro_flag"))))

/-- `process_nationality_data(df, start_year, end_year)`, with the same
`Option` conventions as `process_wsl_data`. -/
def process_nationality_data (df : Option Table) (startYear endYear : Int) :
    Option (Option Table) :=
  match df with
  | none => some none
  | some t =>
    if t.rows.isEmpty || t.cols.isEmpty then some (some t)
    else (natCleanBody t startYear endYear).map some

/-! ### `src/modelling.py` -/

/-- One row of the model input table `model_df`: its `Season` (null
possible), target value (`Attendance`), `Capacity`, the one-hot club dummy
columns `Club_<name>` (integer 0/1 values), and the engineered feature
columns. -/
structure MRow where
  season : Option Int
  target : ℚ
  capacity : ℚ
  dummies : List (String × Int)
  feats : List (String × ℚ)
deriving DecidableEq

/-- One synthetic future row appended by the forecasting loop.  `none` in
a numeric field models `np.nan` / a missing carried-forward feature. -/
structure FutureRow where
  season : Int
  club : String
  dummies : List (String × Int)
  capacity : Option ℚ
  predicted : Option ℚ
  target : Option ℚ
  feats : List (String × Option ℚ)
deriving DecidableEq

/-- Stable insertion into a sorted list (keeps an incoming element after
the equal elements already placed before it in the original order). -/
def insertSortedB (le : α → α → Bool) (a : α) : List α → List α
  | [] => [a]
  | b :: l => if le a b then a :: b :: l else b :: insertSortedB le a l

/-- Stable sort by a boolean comparison, as `DataFrame.sort_values` is
stable for the forecasting loop's purposes. -/
def sortByB (le : α → α → Bool) : List α → List α
  | [] => []
  | a :: l => insertSortedB le a (sortByB le l)

/-- Ascending `Season` order with null seasons last, as
`sort_values('Season')` places `NaN` last. -/
def seasonLeB (a b : MRow) : Bool :=
  match a.season, b.season with
  | some x, some y => decide (x ≤ y)
  | some _, none => true
  | none, some _ => false
  | none, none => true

/-- `model_df[model_df[f'Club_{club}'] == 1].sort_values('Season')`: the
club's historical rows in season order. -/
def sortedClubHist (tbl : List MRow) (club : String) : List MRow :=
  sortByB seasonLeB
    (tbl.filter (fun r => r.dummies.lookup ("Club_" ++ club) == some 1))

/-- `train_df = model_df[model_df['Season'] < split_year]`; a null season
compares false, as `NaN` comparisons do in pandas. -/
def trainSplit (tbl : List MRow) (splitYear : Int) : List MRow :=
  tbl.filter (fun r =>
    match r.season with
    | some s => decide (s < splitYear)
    | none => false)

/-- `test_df = model_df[model_df['Season'] >= split_year]`. -/
def testSplit (tbl : List MRow) (splitYear : Int) : List MRow :=
  tbl.filter (fun r =>
    match r.season with
    | some s => decide (splitYear ≤ s)
    | none => false)

/-- `pct_change` of consecutive values, with the leading `NaN` already
dropped (the pandas `median` skips it): the rate of row `i+1` over row
`i`. -/
def growthRates (xs : List ℚ) : List ℚ :=
  List.zipWith (fun prev cur => cur / prev - 1) xs xs.tail

/-- `Series.median()` on non-null values: sort, then the middle value, or
the mean of the two middle values for an even count. -/
def medianQ (xs : List ℚ) : ℚ :=
  let s := sortByB (fun a b => decide (a ≤ b)) xs
  let n := s.length
  if n % 2 = 1 then s.getD (n / 2) 0
  else (s.getD (n / 2 - 1) 0 + s.getD (n / 2) 0) / 2

/-- `cdf['growth'] = cdf[target].pct_change(); cdf['growth'].median()`. -/
def medianGrowth (xs : List ℚ) : ℚ :=
  medianQ (growthRates xs)

/-- One synthetic row of the short-history branch (fewer than two
historical rows): target, prediction and every feature null, the club's
own dummy 1 and all others 0, the given carried capacity. -/
def shortRow (club : String) (clubCols featCols : List String) (y : Int)
    (cap : Option ℚ) : FutureRow :=
  { season := y
    club := club
    dummies := clubCols.map (fun c => (c, if c = "Club_" ++ club then (1 : Int) else 0))
    capacity := cap
    predicted := none
    target := none
    feats := featCols.map (fun c => (c, none)) }

/-- The regular forecasting loop body: for each future year in order,
update `last_att := last_att * (1 + median_growth)` and emit a row with
that prediction, a null target, carried-forward features and capacity, and
the club's dummy pattern. -/
def regularRows (club : String) (clubCols featCols : List String) (lastRow : MRow)
    (m : ℚ) : List Int → ℚ → List FutureRow
  | [], _ => []
  | y :: ys, att =>
    let next := att * (1 + m)
    { season := y
      club := club
      dummies := clubCols.map (fun c => (c, if c = "Club_" ++ club then (1 : Int) else 0))
      capacity := some lastRow.capacity
      predicted := some next
      target := none
      feats := featCols.map (fun c => (c, lastRow.feats.lookup c)) } ::
    regularRows club clubCols featCols lastRow m ys next

/-- The per-club body of the forecasting loop of `fit_wsl_linear_model`
(lines 70-143), applied to the club's sorted historical rows `cdf`.
`hasCap` states whether the table has a `Capacity` column.  `none` models
a raised exception: `cdf['Capacity'].iloc[-1]` on an empty selection
(`IndexError`), and `last_row['Capacity']` without a `Capacity` column
(`KeyError`). -/
def clubFutureRows (club : String) (clubCols featCols : List String) (hasCap : Bool)
    (years : List Int) (cdf : List MRow) : Option (List FutureRow) :=
  if cdf.length < 2 then
    match hasCap, cdf.getLast? with
    | true, none => none
    | true, some r =>
      some (years.map (fun y => shortRow club clubCols featCols y (some r.capacity)))
    | false, _ =>
      some (years.map (fun y => shortRow club clubCols featCols y none))
  else
    match hasCap, cdf.getLast? with
    | true, some lastRow =>
      some (regularRows club clubCols featCols lastRow
        (medianGrowth (cdf.map MRow.target)) years lastRow.target)
    | true, none => none
    | false, _ => none

/-- The last observed target value of a club history
(`cdf[target_col].iloc[-1]`; junk 0 on an empty history). -/
def lastTarget (cdf : List MRow) : ℚ :=
  match cdf.getLast? with
  | some r => r.target
  | none => 0

/-! ### IEEE-style values for the metrics bundle -/

/-- The float values the `PctWithin*` metrics can produce per row: a
finite value, the two infinities, or `nan`. -/
inductive FP where
  | fin (q : ℚ)
  | inf
  | ninf
  | nan
deriving DecidableEq

/-- Whether a float value is finite. -/
def FP.isFinite : FP → Bool
  | .fin _ => true
  | _ => false

/-- IEEE division of finite values: division by zero yields a signed
infinity, `0/0` yields `nan`, and no error is raised. -/
def fpDiv (n d : ℚ) : FP :=
  if d = 0 then
    if n = 0 then .nan else if 0 < n then .inf else .ninf
  else .fin (n / d)

/-- IEEE absolute value. -/
def fpAbs : FP → FP
  | .fin q => .fin |q|
  | .inf => .inf
  | .ninf => .inf
  | .nan => .nan

/-- IEEE `x <= c` for a finite bound: comparisons against `nan` are false,
`inf <= c` is false, `-inf <= c` is true. -/
def fpLeQ (a : FP) (c : ℚ) : Bool :=
  match a with
  | .fin q => decide (q ≤ c)
  | .inf => false
  | .ninf => true
  | .nan => false

/-- One row's indicator `np.abs((y_true - y_pred) / y_true) <= tol`. -/
def withinPct (tol t p : ℚ) : Bool :=
  fpLeQ (fpAbs (fpDiv (t - p) t)) tol

/-- `np.mean(np.abs((y_true - y_pred) / y_true) <= tol)`: the fraction of
rows whose relative error is within the tolerance (junk 0 on empty
input, which no metrics call reaches). -/
def pctWithin (tol : ℚ) (yTrue yPred : List ℚ) : ℚ :=
  let flags := List.zipWith (withinPct tol) yTrue yPred
  (flags.count true : ℚ) / (flags.length : ℚ)

/-- The `PctWithin10pct` entry of `compute_metrics`. -/
def pctWithin10pct : List ℚ → List ℚ → ℚ :=
  pctWithin (10 / 100)

/-- The `PctWithin15pct` entry of `compute_metrics`. -/
def pctWithin15pct : List ℚ → List ℚ → ℚ :=
  pctWithin (15 / 100)

/-! ### Claim theorems -/

/-- C6: `nationality_group` is total, mutually exclusive and exhaustive:
every row gets exactly one of the three labels; `Nationality = "England"`
always yields `"English"` whatever the `euro_flag`; otherwise the label is
`"European (excl. Eng)"` exactly when `euro_flag == 1`, and
`"Non-European"` in all remaining cases. -/
theorem nationality_group_total_exclusive (nat flag : Cell) :
    ((nationality_group nat flag = "English" ∧
        nationality_group nat flag ≠ "European (excl. Eng)" ∧
        nationality_group nat flag ≠ "Non-European") ∨
      (nationality_group nat flag ≠ "English" ∧
        nationality_group nat flag = "European (excl. Eng)" ∧
        nationality_group nat flag ≠ "Non-European") ∨
      (nationality_group nat flag ≠ "English" ∧
        nationality_group nat flag ≠ "European (excl. Eng)" ∧
        nationality_group nat flag = "Non-European"))
    ∧ (nat = Cell.str "England" → nationality_group nat flag = "English")
    ∧ (nat ≠ Cell.str "England" →
        (nationality_group nat flag = "European (excl. Eng)" ↔ flag = Cell.num 1))
    ∧ (nat ≠ Cell.str "England" → flag ≠ Cell.num 1 →
        nationality_group nat flag = "Non-European") := by
  unfold nationality_group
  by_cases h1 : nat = Cell.str "England" <;> by_cases h2 : flag = Cell.num 1 <;>
    simp +decide [h1, h2]

/-- Witness for C6 at a concrete row. -/
theorem nationality_group_total_exclusive_witness :
    nationality_group (Cell.str "England") (Cell.num 0) = "English" :=
  (nationality_group_total_exclusive (Cell.str "England") (Cell.num 0)).2.1 rfl

/-- C5: because the allow-list holds the fused entry `"BelgiumNorway"`
instead of separate `"Belgium"` and `"Norway"` entries, every nationality
row whose cleaned country token is `"Belgium"` or `"Norway"` gets
`euro_flag = 0` and `group = "Non-European"` from the cleaning pipeline. -/
theorem fused_belgium_norway (c : Cell)
    (h : c = Cell.str "Belgium" ∨ c = Cell.str "Norway") :
    "Belgium" ∉ EURO_COUNTRIES ∧ "Norway" ∉ EURO_COUNTRIES ∧
    "BelgiumNorway" ∈ EURO_COUNTRIES ∧
    euroFlagCell c = Cell.num 0 ∧
    nationality_group c (euroFlagCell c) = "Non-European" := by
  rcases h with rfl | rfl <;> exact ⟨by decide, by decide, by decide, by decide, by decide⟩

/-- Witness for C5 at the `"Belgium"` token. -/
theorem fused_belgium_norway_witness :
    euroFlagCell (Cell.str "Belgium") = Cell.num 0 ∧
    nationality_group (Cell.str "Belgium") (euroFlagCell (Cell.str "Belgium"))
      = "Non-European" :=
  ⟨(fused_belgium_norway (Cell.str "Belgium") (Or.inl rfl)).2.2.2.1,
    (fused_belgium_norway (Cell.str "Belgium") (Or.inl rfl)).2.2.2.2⟩

/-- C8: for an absent (`None`) input or a table with zero rows, both
season cleaning and nationality cleaning return the input unchanged
without raising: the empty/absent state is propagated to the caller. -/
theorem process_empty_guard (sy ey : Int) :
    process_wsl_data none sy ey = some none ∧
    process_nationality_data none sy ey = some none ∧
    (∀ t : Table, t.rows = [] →
      process_wsl_data (some t) sy ey = some (some t) ∧
      process_nationality_data (some t) sy ey = some (some t)) := by
  refine ⟨rfl, rfl, fun t ht => ⟨?_, ?_⟩⟩ <;>
    simp [process_wsl_data, process_nationality_data, ht]

/-- Witness for C8 on a concrete empty table. -/
theorem process_empty_guard_witness :
    process_wsl_data (some ⟨["Squad"], []⟩) 2020 2021 = some (some ⟨["Squad"], []⟩) :=
  ((process_empty_guard 2020 2021).2.2 ⟨["Squad"], []⟩ rfl).1

/-- C3: the train/test split of `fit_wsl_linear_model` is a strict
temporal partition: a row with a non-null `Season = s` is in the train
partition iff `s < split_year` and in the test partition iff
`s >= split_year`, hence in exactly one of the two; both partitions are
order-preserving sublists of the input (no shuffling), and occurrence
counts are preserved. -/
theorem season_split_partition (tbl : List MRow) (y : Int) (r : MRow) (s : Int)
    (hs : r.season = some s) :
    (r ∈ trainSplit tbl y ↔ r ∈ tbl ∧ s < y)
    ∧ (r ∈ testSplit tbl y ↔ r ∈ tbl ∧ y ≤ s)
    ∧ ¬ (r ∈ trainSplit tbl y ∧ r ∈ testSplit tbl y)
    ∧ (r ∈ tbl → (r ∈ trainSplit tbl y ∨ r ∈ testSplit tbl y))
    ∧ (trainSplit tbl y).Sublist tbl
    ∧ (testSplit tbl y).Sublist tbl
    ∧ (trainSplit tbl y).count r + (testSplit tbl y).count r = tbl.count r := by
  have hp1 : r ∈ trainSplit tbl y ↔ r ∈ tbl ∧ s < y := by
    simp [trainSplit, List.mem_filter, hs]
  have hp2 : r ∈ testSplit tbl y ↔ r ∈ tbl ∧ y ≤ s := by
    simp [testSplit, List.mem_filter, hs]
  refine ⟨hp1, hp2, ?_, ?_, List.filter_sublist tbl, List.filter_sublist tbl, ?_⟩
  · rintro ⟨h1, h2⟩
    have ha := (hp1.mp h1).2
    have hb := (hp2.mp h2).2
    omega
  · intro hr
    by_cases hlt : s < y
    · exact Or.inl (hp1.mpr ⟨hr, hlt⟩)
    · exact Or.inr (hp2.mpr ⟨hr, by omega⟩)
  · by_cases hlt : s < y
    · have h1 : (trainSplit tbl y).count r = tbl.count r :=
        List.count_filter (by simp [hs, hlt])
      have h2 : (testSplit tbl y).count r = 0 :=
        List.count_eq_zero_of_not_mem (fun hmem => by
          have := (hp2.mp hmem).2; omega)
      omega
    · have h1 : (testSplit tbl y).count r = tbl.count r :=
        List.count_filter (by simp [hs]; omega)
      have h2 : (trainSplit tbl y).count r = 0 :=
        List.count_eq_zero_of_not_mem (fun hmem => by
          have := (hp1.mp hmem).2; omega)
      omega

/-- Witness for C3 on a concrete one-row table. -/
theorem season_split_partition_witness :
    (⟨some 2021, 100, 200, [], []⟩ : MRow) ∈
      trainSplit [⟨some 2021, 100, 200, [], []⟩] 2022 :=
  ((season_split_partition [⟨some 2021, 100, 200, [], []⟩] 2022
      ⟨some 2021, 100, 200, [], []⟩ 2021 rfl).1).mpr ⟨by simp, by norm_num⟩

/-- C9: the `PctWithin10pct` and `PctWithin15pct` metrics divide by the
actual value per row; on a row with actual value `0` the per-row ratio is
a non-finite IEEE value (`inf`, or `nan` when the prediction is also `0`)
rather than a raised error, that row counts as not-within, and the metric
itself still evaluates to a value in `[0, 1]`. -/
theorem pct_within_zero_actual (p : ℚ) (yTrue yPred : List ℚ) :
    (p ≠ 0 → fpAbs (fpDiv (0 - p) 0) = FP.inf)
    ∧ (p = 0 → fpAbs (fpDiv (0 - p) 0) = FP.nan)
    ∧ (fpAbs (fpDiv (0 - p) 0)).isFinite = false
    ∧ withinPct (10 / 100) 0 p = false
    ∧ withinPct (15 / 100) 0 p = false
    ∧ 0 ≤ pctWithin10pct yTrue yPred ∧ pctWithin10pct yTrue yPred ≤ 1
    ∧ 0 ≤ pctWithin15pct yTrue yPred ∧ pctWithin15pct yTrue yPred ≤ 1 := by
  have hdiv : ∀ q : ℚ, fpAbs (fpDiv q 0) = if q = 0 then FP.nan else FP.inf := by
    intro q
    by_cases h : q = 0 <;> by_cases h2 : 0 < q <;> simp [fpDiv, fpAbs, h, h2]
  have hbound : ∀ (tol : ℚ) (a b : List ℚ),
      0 ≤ pctWithin tol a b ∧ pctWithin tol a b ≤ 1 := by
    intro tol a b
    unfold pctWithin
    rcases Nat.eq_zero_or_pos (List.zipWith (withinPct tol) a b).length with h | h
    · rw [List.length_eq_zero.mp h]
      norm_num
    · have hc : ((List.zipWith (withinPct tol) a b).count true : ℚ) ≤
          ((List.zipWith (withinPct tol) a b).length : ℚ) := by
        exact_mod_cast List.count_le_length _ _
      have hl : (0 : ℚ) < ((List.zipWith (withinPct tol) a b).length : ℚ) := by
        exact_mod_cast h
      constructor
      · exact div_nonneg (by positivity) (le_of_lt hl)
      · rw [div_le_one hl]
        exact hc
  refine ⟨fun hp => ?_, fun hp => ?_, ?_, ?_, ?_, ?_, ?_, ?_, ?_⟩
  · rw [hdiv, if_neg (by intro h; apply hp; linarith)]
  · rw [hdiv, hp]
    norm_num
  · rw [hdiv]
    by_cases hp : p = 0 <;> simp [hp, FP.isFinite]
  · unfold withinPct
    rw [hdiv]
    by_cases hp : p = 0 <;> simp [hp, fpLeQ]
  · unfold withinPct
    rw [hdiv]
    by_cases hp : p = 0 <;> simp [hp, fpLeQ]
  · exact (hbound (10 / 100) yTrue yPred).1
  · exact (hbound (10 / 100) yTrue yPred).2
  · exact (hbound (15 / 100) yTrue yPred).1
  · exact (hbound (15 / 100) yTrue yPred).2

/-- Witness for C9: a zero actual with nonzero prediction gives an
infinite ratio, and the metric still evaluates. -/
theorem pct_within_zero_actual_witness :
    fpAbs (fpDiv (0 - 5) 0) = FP.inf ∧ 0 ≤ pctWithin10pct [0, 2] [1, 2] :=
  ⟨(pct_within_zero_actual 5 [0, 2] [1, 2]).1 (by norm_num),
    (pct_within_zero_actual 5 [0, 2] [1, 2]).2.2.2.2.2.1⟩

/-! ### Column read-back lemmas for `setColumn` -/

/-- Rows with a cell overwritten at index `i` read the written value back
at that index. -/
theorem rows_set_get (rows : List (List Cell)) (vals : List Cell) (i : Nat)
    (hwf : ∀ r ∈ rows, i < r.length) (hlen : vals.length = rows.length) :
    ((rows.zip vals).map (fun rv => rv.1.set i rv.2)).map
      (fun r => r.getD i Cell.null) = vals := by
  induction rows generalizing vals with
  | nil => cases vals <;> simp_all
  | cons r rs ih =>
    cases vals with
    | nil => simp at hlen
    | cons v vs =>
      simp only [List.zip_cons_cons, List.map_cons]
      have hi : i < r.length := hwf r (by simp)
      congr 1
      · rw [List.getD_eq_getElem?_getD, List.getElem?_set]
        simp [hi]
      · exact ih vs (fun q hq => hwf q (by simp [hq])) (by simpa using hlen)

/-- Rows extended with one cell on the right read that cell back at the
old row length. -/
theorem rows_append_get (rows : List (List Cell)) (vals : List Cell) (n : Nat)
    (hwf : ∀ r ∈ rows, r.length = n) (hlen : vals.length = rows.length) :
    ((rows.zip vals).map (fun rv => rv.1 ++ [rv.2])).map
      (fun r => r.getD n Cell.null) = vals := by
  induction rows generalizing vals with
  | nil => cases vals <;> simp_all
  | cons r rs ih =>
    cases vals with
    | nil => simp at hlen
    | cons v vs =>
      simp only [List.zip_cons_cons, List.map_cons]
      have hr : r.length = n := hwf r (by simp)
      congr 1
      · rw [List.getD_eq_getElem?_getD, ← hr, List.getElem?_append_right (le_refl _)]
        simp
      · exact ih vs (fun q hq => hwf q (by simp [hq])) (by simpa using hlen)

/-- Writing a column and reading it back yields the written values, for a
well-formed table and matching lengths. -/
theorem getColumn_setColumn (t : Table) (c : String) (vals : List Cell)
    (hwf : t.WF) (hlen : vals.length = t.rows.length) :
    getColumn (setColumn t c vals) c = vals := by
  unfold getColumn setColumn getCellR
  by_cases hc : c ∈ t.cols
  · simp only [if_pos hc]
    exact rows_set_get t.rows vals (t.cols.indexOf c)
      (fun r hr => by rw [hwf r hr]; exact List.indexOf_lt_length.mpr hc) hlen
  · simp only [if_neg hc]
    have hidx : (t.cols ++ [c]).indexOf c = t.cols.length := by
      rw [List.indexOf_append_of_not_mem hc]
      simp
    rw [hidx]
    exact rows_append_get t.rows vals t.cols.length (fun r hr => hwf r hr) hlen

/-- C7: `create_unique_id` builds the new column by joining the text form
of every listed column with `"_"` in the given column order, per row
(`Squad = "Arsenal"`, `season = "2020_2021"` gives
`"Arsenal_2020_2021"`), and it fails fast with a missing-column error
exactly when some named column does not exist in the table. -/
theorem create_unique_id_spec :
    (∀ (t : Table) (columns : List String) (newCol : String), t.WF →
      (∀ c ∈ columns, c ∈ t.cols) →
      ∃ t2, create_unique_id t columns newCol = some t2 ∧
        getColumn t2 newCol =
          t.rows.map (fun r => Cell.str (uidValue t.cols r columns)))
    ∧ (∀ (t : Table) (columns : List String) (newCol : String),
        (∃ c ∈ columns, c ∉ t.cols) →
        create_unique_id t columns newCol = none)
    ∧ create_unique_id ⟨["Squad", "season"], [[.str "Arsenal", .str "2020_2021"]]⟩
        ["Squad", "season"] "unique_ID" =
      some ⟨["Squad", "season", "unique_ID"],
        [[.str "Arsenal", .str "2020_2021", .str "Arsenal_2020_2021"]]⟩ := by
  refine ⟨?_, ?_, by decide⟩
  · intro t columns newCol hwf hcols
    refine ⟨setColumn t newCol
      (t.rows.map (fun r => Cell.str (uidValue t.cols r columns))), ?_, ?_⟩
    · unfold create_unique_id
      rw [if_pos]
      simp only [List.all_eq_true, decide_eq_true_eq]
      exact hcols
    · exact getColumn_setColumn t newCol _ hwf (by simp)
  · rintro t columns newCol ⟨c, hc, hnc⟩
    unfold create_unique_id
    rw [if_neg]
    simp only [List.all_eq_true, decide_eq_true_eq, not_forall]
    exact ⟨c, hc, hnc⟩

/-- Witness for C7 on the Arsenal row. -/
theorem create_unique_id_spec_witness :
    ∃ t2, create_unique_id
        ⟨["Squad", "season"], [[Cell.str "Arsenal", Cell.str "2020_2021"]]⟩
        ["Squad", "season"] "unique_ID" = some t2 ∧
      getColumn t2 "unique_ID" =
        ([[Cell.str "Arsenal", Cell.str "2020_2021"]] : List (List Cell)).map
          (fun r => Cell.str (uidValue ["Squad", "season"] r ["Squad", "season"])) :=
  create_unique_id_spec.1
    ⟨["Squad", "season"], [[Cell.str "Arsenal", Cell.str "2020_2021"]]⟩
    ["Squad", "season"] "unique_ID"
    (by unfold Table.WF; decide) (by decide)

/-! ### Lookup lemmas for the rename round trip -/

/-- A successful association-list lookup returns one of the stored
values. -/
theorem lookup_mem_values (m : List (String × String)) (c v : String) :
    m.lookup c = some v → v ∈ m.map Prod.snd := by
  induction m with
  | nil => intro h; simp [List.lookup] at h
  | cons p rest ih =>
    intro h
    rcases p with ⟨k, w⟩
    by_cases hck : c = k
    · subst hck
      simp [List.lookup] at h
      simp [h]
    · have hb : (c == k) = false := by simp [hck]
      simp only [List.lookup, hb] at h
      simp [ih h]

/-- Lookup misses exactly the keys that are absent. -/
theorem lookup_eq_none_of_not_mem_keys (m : List (String × String)) (c : String)
    (h : c ∉ m.map Prod.fst) : m.lookup c = none := by
  induction m with
  | nil => rfl
  | cons p rest ih =>
    rcases p with ⟨k, w⟩
    simp only [List.map_cons, List.mem_cons, not_or] at h
    have hb : (c == k) = false := by simp [h.1]
    simp only [List.lookup, hb]
    exact ih h.2

/-- When keys and values are each duplicate-free, looking a mapped value
up in the swapped association list recovers its key. -/
theorem swap_lookup (m : List (String × String))
    (hk : (m.map Prod.fst).Nodup) (hv : (m.map Prod.snd).Nodup)
    (c v : String) (h : m.lookup c = some v) :
    (m.map Prod.swap).lookup v = some c := by
  induction m with
  | nil => simp [List.lookup] at h
  | cons p rest ih =>
    rcases p with ⟨k, w⟩
    simp only [List.map_cons] at hk hv ⊢
    rw [List.nodup_cons] at hk hv
    by_cases hck : c = k
    · subst hck
      simp only [List.lookup, beq_self_eq_true] at h
      injection h with h
      subst h
      simp [List.lookup, Prod.swap]
    · have hb : (c == k) = false := by simp [hck]
      simp only [List.lookup, hb] at h
      have hvmem : v ∈ rest.map Prod.snd := lookup_mem_values rest c v h
      have hvw : (v == w) = false := by
        simp only [beq_eq_false_iff_ne, ne_eq]
        intro hvw
        subst hvw
        exact hv.1 hvmem
      simp only [List.lookup, Prod.swap, hvw]
      exact ih hk.2 hv.2 h

/-- C10 counterexample: the round trip fails as universally stated.  The
mapping `[("A", "B")]` is injective, but on a table whose only column is
`"B"` (which the mapping's key set misses), the forward rename leaves
`"B"` in place and the exact inverse mapping `[("B", "A")]` then renames
it to `"A"`, so the original column names are not restored. -/
theorem convert_column_names_roundtrip_cex :
    (([("A", "B")] : List (String × String)).map Prod.fst).Nodup
    ∧ (([("A", "B")] : List (String × String)).map Prod.snd).Nodup
    ∧ (([("A", "B")] : List (String × String)).map Prod.swap = [("B", "A")])
    ∧ convert_column_names (convert_column_names ⟨["B"], []⟩ [("A", "B")]) [("B", "A")]
        ≠ ⟨["B"], []⟩
    ∧ (convert_column_names (convert_column_names ⟨["B"], []⟩ [("A", "B")])
        [("B", "A")]).cols = ["A"] :=
  ⟨by decide, by decide, by decide, by decide, by decide⟩

/-- C10 (amended): renaming with an injective mapping and then with its
exact inverse restores the original column names provided no mapping value
collides with a table column that the mapping's keys miss; unmapped
columns always pass through unchanged, mapping keys matching no column
have no effect, and row data is never touched. -/
theorem convert_column_names_roundtrip_amended :
    (∀ (t : Table) (m : List (String × String)),
      (m.map Prod.fst).Nodup → (m.map Prod.snd).Nodup →
      (∀ c ∈ t.cols, m.lookup c = none → c ∉ m.map Prod.snd) →
      convert_column_names (convert_column_names t m) (m.map Prod.swap) = t)
    ∧ (∀ (t : Table) (m : List (String × String)),
      (∀ c ∈ t.cols, m.lookup c = none) → convert_column_names t m = t)
    ∧ (∀ (t : Table) (m : List (String × String)),
      (convert_column_names t m).rows = t.rows) := by
  refine ⟨?_, ?_, fun t m => rfl⟩
  · intro t m hk hv hcond
    rcases t with ⟨cols, rows⟩
    simp only [convert_column_names, List.map_map, Table.mk.injEq, and_true]
    conv_rhs => rw [← List.map_id cols]
    apply List.map_congr_left
    intro c hc
    simp only [Function.comp_apply, id_eq]
    cases hmc : m.lookup c with
    | some v =>
      simp only [Option.getD_some]
      rw [swap_lookup m hk hv c v hmc]
      rfl
    | none =>
      simp only [Option.getD_none]
      have hkeys : (m.map Prod.swap).map Prod.fst = m.map Prod.snd := by
        rw [List.map_map]
        apply List.map_congr_left
        intro p _
        exact Prod.fst_swap
      have : (m.map Prod.swap).lookup c = none := by
        apply lookup_eq_none_of_not_mem_keys
        rw [hkeys]
        exact hcond c hc hmc
      rw [this]
      rfl
  · intro t m hcond
    rcases t with ⟨cols, rows⟩
    simp only [convert_column_names, Table.mk.injEq, and_true]
    conv_rhs => rw [← List.map_id cols]
    apply List.map_congr_left
    intro c hc
    rw [hcond c hc]
    rfl


/-- Witness for C10 (amended) on a concrete table and mapping. -/
theorem convert_column_names_roundtrip_witness :
    convert_column_names (convert_column_names ⟨["A", "X"], []⟩ [("A", "B")])
      (([("A", "B")] : List (String × String)).map Prod.swap) = ⟨["A", "X"], []⟩ :=
  convert_column_names_roundtrip_amended.1 ⟨["A", "X"], []⟩ [("A", "B")]
    (by decide) (by decide) (by decide)

/-! ### Claim C4: numeric coercion -/

/-- Overwriting an existing column keeps the column list. -/
theorem setColumn_cols_of_mem (t : Table) (c : String) (vals : List Cell)
    (h : c ∈ t.cols) : (setColumn t c vals).cols = t.cols := by
  simp [setColumn, h]

/-- `convert_to_numeric` succeeds whenever every listed column exists, and
it never changes the column list. -/
theorem convert_to_numeric_some (columns : List String) : ∀ (t : Table),
    (∀ c ∈ columns, c ∈ t.cols) →
    ∃ t2, convert_to_numeric t columns = some t2 ∧ t2.cols = t.cols := by
  induction columns with
  | nil => exact fun t _ => ⟨t, rfl, rfl⟩
  | cons c rest ih =>
    intro t h
    have hc : c ∈ t.cols := h c (by simp)
    have hcols := setColumn_cols_of_mem t c ((getColumn t c).map coerceCell) hc
    obtain ⟨t2, h2, h3⟩ := ih (setColumn t c ((getColumn t c).map coerceCell))
      (fun d hd => hcols ▸ h d (by simp [hd]))
    refine ⟨t2, ?_, h3.trans hcols⟩
    unfold convert_to_numeric
    rw [List.foldlM_cons, if_pos hc]
    exact h2

/-- C4 counterexample: with a listed column absent from the table,
`convert_to_numeric` raises a `KeyError` (modelled by `none`) instead of
never raising. -/
theorem convert_to_numeric_missing_column_cex :
    convert_to_numeric ⟨["a"], []⟩ ["b"] = none := by decide

/-- C4 (amended): for every listed column that exists in the table,
`convert_to_numeric` never raises: each value has its comma separators
and surrounding whitespace stripped and is then parsed, any value that
still fails to parse becoming null; `"1,234"` parses to `1234`, `"N/A"`
and `""` become null.  (A listed column missing from the table instead
raises a `KeyError`.) -/
theorem convert_to_numeric_spec :
    (∀ (t : Table) (columns : List String),
      (∀ c ∈ columns, c ∈ t.cols) →
      ∃ t2, convert_to_numeric t columns = some t2)
    ∧ (∀ (t : Table) (c : String), c ∈ t.cols → t.WF →
      ∃ t2, convert_to_numeric t [c] = some t2 ∧
        getColumn t2 c = (getColumn t c).map coerceCell)
    ∧ coerceCell (Cell.str "1,234") = Cell.num 1234
    ∧ coerceCell (Cell.str "N/A") = Cell.null
    ∧ coerceCell (Cell.str "") = Cell.null
    ∧ convert_to_numeric ⟨["v"], [[Cell.str "1,234"], [Cell.str "N/A"], [Cell.str ""]]⟩ ["v"]
      = some ⟨["v"], [[Cell.num 1234], [Cell.null], [Cell.null]]⟩ := by
  have h1 : coerceCell (Cell.str "1,234") = Cell.num 1234 := by
    unfold coerceCell
    rw [show pandasNumClean (cellToStr (Cell.str "1,234")) = "1234" from by decide]
    unfold toNumericCell
    rw [show parseRat "1234" = some 1234 from by
      unfold parseRat
      rw [show String.toList "1234" = ['1', '2', '3', '4'] from rfl]
      simp +decide [parseSign, splitAtTwoChars, splitAtChar, parseMantissa, digitsToNat]]
  have h2 : coerceCell (Cell.str "N/A") = Cell.null := by decide
  have h3 : coerceCell (Cell.str "") = Cell.null := by decide
  refine ⟨?_, ?_, h1, h2, h3, ?_⟩
  · intro t columns h
    obtain ⟨t2, ht2, _⟩ := convert_to_numeric_some columns t h
    exact ⟨t2, ht2⟩
  · intro t c hc hwf
    refine ⟨setColumn t c ((getColumn t c).map coerceCell), ?_, ?_⟩
    · unfold convert_to_numeric
      rw [List.foldlM_cons, if_pos hc]
      rfl
    · exact getColumn_setColumn t c _ hwf (by simp [getColumn])
  · rw [show convert_to_numeric
          ⟨["v"], [[Cell.str "1,234"], [Cell.str "N/A"], [Cell.str ""]]⟩ ["v"]
        = some ⟨["v"], [[coerceCell (Cell.str "1,234")], [coerceCell (Cell.str "N/A")],
            [coerceCell (Cell.str "")]]⟩ from rfl,
      h1, h2, h3]

/-- Witness for C4 (amended): applies the theorem to the concrete table. -/
theorem convert_to_numeric_spec_witness :
    ∃ t2, convert_to_numeric
        ⟨["v"], [[Cell.str "1,234"], [Cell.str "N/A"], [Cell.str ""]]⟩ ["v"] = some t2 ∧
      getColumn t2 "v" =
        (getColumn ⟨["v"], [[Cell.str "1,234"], [Cell.str "N/A"], [Cell.str ""]]⟩ "v").map
          coerceCell :=
  convert_to_numeric_spec.2.1
    ⟨["v"], [[Cell.str "1,234"], [Cell.str "N/A"], [Cell.str ""]]⟩ "v"
    (by decide) (by unfold Table.WF; decide)

/-! ### Claims C1 and C2: the per-club forecasting loop -/

/-- C2 counterexample: the dummy column `Club_X` exists while club `X` has
zero historical rows (its dummy is 0 on every row); the short-history
branch then evaluates `cdf['Capacity'].iloc[-1]` on an empty selection and
raises `IndexError` (modelled by `none`) instead of emitting null rows
without error, contradicting the claim's zero-row case. -/
theorem short_history_zero_rows_cex :
    sortedClubHist [⟨some 2023, 30000, 40000, [("Club_X", 0), ("Club_Y", 1)], []⟩] "X" = []
    ∧ clubFutureRows "X" ["Club_X", "Club_Y"] [] true [2024]
        (sortedClubHist [⟨some 2023, 30000, 40000, [("Club_X", 0), ("Club_Y", 1)], []⟩] "X")
      = none := by
  constructor <;> decide

/-- C2 (amended): for every club whose dummy column exists but which has
fewer than 2 historical rows, provided the club has at least one row or
the table has no `Capacity` column, one synthetic row per forecast year is
emitted, in year order, with null target, null `Predicted_Attendance`,
every engineered feature null, the club's own dummy 1 and all other
dummies 0, and `Capacity` carried from the last known row when the column
exists (null otherwise); no fabricated forecast number is produced and no
error is raised.  (With zero rows and an existing `Capacity` column the
code instead raises `IndexError`.) -/
theorem short_history_club_rows (tbl : List MRow) (club : String)
    (clubCols featCols : List String) (hasCap : Bool) (years : List Int)
    (hshort : (sortedClubHist tbl club).length < 2)
    (hsafe : hasCap = false ∨ sortedClubHist tbl club ≠ []) :
    ∃ rows, clubFutureRows club clubCols featCols hasCap years (sortedClubHist tbl club)
        = some rows
      ∧ rows.length = years.length
      ∧ rows.map FutureRow.season = years
      ∧ ∀ r ∈ rows,
          r.predicted = none ∧ r.target = none
          ∧ (∀ p ∈ r.feats, p.2 = none)
          ∧ r.dummies = clubCols.map
              (fun c => (c, if c = "Club_" ++ club then (1 : Int) else 0))
          ∧ r.capacity = (if hasCap then
              ((sortedClubHist tbl club).getLast?).map MRow.capacity else none) := by
  set cdf := sortedClubHist tbl club with hcdf
  cases hasCap with
  | false =>
    refine ⟨years.map (fun y => shortRow club clubCols featCols y none), ?_, by simp, ?_, ?_⟩
    · unfold clubFutureRows
      rw [if_pos hshort]
    · simp [shortRow, Function.comp_def]
    · intro r hr
      rw [List.mem_map] at hr
      obtain ⟨y, _, rfl⟩ := hr
      refine ⟨rfl, rfl, ?_, rfl, by simp [shortRow]⟩
      intro p hp
      rw [shortRow] at hp
      simp at hp
      obtain ⟨a, _, hpe⟩ := hp
      rw [← hpe]
  | true =>
    rcases hsafe with hfalse | hne
    · exact absurd hfalse (by simp)
    · obtain ⟨r0, hr0⟩ : ∃ r0, cdf.getLast? = some r0 := by
        cases h : cdf.getLast? with
        | none => exact absurd (List.getLast?_eq_none_iff.mp h) hne
        | some r => exact ⟨r, rfl⟩
      refine ⟨years.map (fun y => shortRow club clubCols featCols y (some r0.capacity)),
        ?_, by simp, ?_, ?_⟩
      · unfold clubFutureRows
        rw [if_pos hshort, hr0]
      · simp [shortRow, Function.comp_def]
      · intro r hr
        rw [List.mem_map] at hr
        obtain ⟨y, _, rfl⟩ := hr
        refine ⟨rfl, rfl, ?_, rfl, by simp [hr0, shortRow]⟩
        intro p hp
        rw [shortRow] at hp
        simp at hp
        obtain ⟨a, _, hpe⟩ := hp
        rw [← hpe]

/-- Witness for C2 (amended) on a club with exactly one historical row. -/
theorem short_history_club_rows_witness :
    ∃ rows, clubFutureRows "X" ["Club_X"] [] true [2024]
        (sortedClubHist [⟨some 2023, 30000, 40000, [("Club_X", 1)], []⟩] "X")
        = some rows
      ∧ rows.length = [(2024 : Int)].length
      ∧ rows.map FutureRow.season = [2024]
      ∧ ∀ r ∈ rows,
          r.predicted = none ∧ r.target = none
          ∧ (∀ p ∈ r.feats, p.2 = none)
          ∧ r.dummies = ["Club_X"].map
              (fun c => (c, if c = "Club_" ++ "X" then (1 : Int) else 0))
          ∧ r.capacity = (if true then
              ((sortedClubHist [⟨some 2023, 30000, 40000, [("Club_X", 1)], []⟩]
                "X").getLast?).map MRow.capacity else none) :=
  short_history_club_rows [⟨some 2023, 30000, 40000, [("Club_X", 1)], []⟩] "X"
    ["Club_X"] [] true [2024] (by decide) (Or.inr (by decide))

/-- The iterative growth loop compounds the rate: the `j`-th emitted row
predicts `att * (1 + m)^(j+1)`. -/
theorem regularRows_predicted (club : String) (cc fc : List String) (lastRow : MRow)
    (m : ℚ) : ∀ (years : List Int) (att : ℚ) (j : Nat), j < years.length →
    ((regularRows club cc fc lastRow m years att).map FutureRow.predicted)[j]?
      = some (some (att * (1 + m) ^ (j + 1))) := by
  intro years
  induction years with
  | nil =>
    intro att j hj
    simp at hj
  | cons y ys ih =>
    intro att j hj
    cases j with
    | zero =>
      simp only [regularRows, List.map_cons, List.getElem?_cons_zero,
        Option.some.injEq]
      rw [pow_one]
    | succ k =>
      have hrec := ih (att * (1 + m)) k (by simpa using hj)
      simp only [regularRows, List.map_cons, List.getElem?_cons_succ]
      rw [hrec]
      simp only [Option.some.injEq]
      ring

/-- A concrete three-season history of one club with attendances
`[30000, 33000, 36000]`. -/
def exTbl : List MRow :=
  [⟨some 2021, 30000, 40000, [("Club_A", 1)], []⟩,
   ⟨some 2022, 33000, 40000, [("Club_A", 1)], []⟩,
   ⟨some 2023, 36000, 40000, [("Club_A", 1)], []⟩]

/-- C1: for every club with at least two historical rows (the table
having a `Capacity` column), the future rows compound the median
period-over-period growth `m` of the target from the last observed value
`v`: the `j`-th future row's `Predicted_Attendance` is `v * (1 + m)^(j+1)`,
applied successively in year order; with history `[30000, 33000, 36000]`
the growth rates are `[1/10, 1/11]`, their median is `21/220`, a one-year
forecast is `433800/11 ≈ 39438` (within 2 of it), and a two-year forecast
compounds again from that result. -/
theorem median_growth_forecast :
    (∀ (tbl : List MRow) (club : String) (clubCols featCols : List String)
        (years : List Int) (j : Nat),
      2 ≤ (sortedClubHist tbl club).length → j < years.length →
      ∃ rows, clubFutureRows club clubCols featCols true years (sortedClubHist tbl club)
          = some rows ∧
        (rows.map FutureRow.predicted)[j]? =
          some (some (lastTarget (sortedClubHist tbl club) *
            (1 + medianGrowth ((sortedClubHist tbl club).map MRow.target)) ^ (j + 1))))
    ∧ growthRates [30000, 33000, 36000] = [1 / 10, 1 / 11]
    ∧ medianGrowth [30000, 33000, 36000] = 21 / 220
    ∧ (clubFutureRows "A" ["Club_A"] [] true [2024, 2025]
        (sortedClubHist exTbl "A")).map (List.map FutureRow.predicted)
      = some [some (433800 / 11), some (5227290 / 121)]
    ∧ |(433800 : ℚ) / 11 - 39438| < 2
    ∧ (5227290 : ℚ) / 121 = 433800 / 11 * (1 + 21 / 220) := by
  have hg : growthRates [(30000 : ℚ), 33000, 36000] = [1 / 10, 1 / 11] := by
    rw [show growthRates [(30000 : ℚ), 33000, 36000]
        = [33000 / 30000 - 1, 36000 / 33000 - 1] from rfl]
    norm_num
  have hm : medianGrowth [(30000 : ℚ), 33000, 36000] = 21 / 220 := by
    unfold medianGrowth
    rw [hg]
    norm_num [medianQ, sortByB, insertSortedB]
  refine ⟨?_, hg, hm, ?_, ?_, by norm_num⟩
  · intro tbl club clubCols featCols years j h2 hj
    set cdf := sortedClubHist tbl club with hcdf
    have hne : cdf ≠ [] := by
      intro h
      rw [h] at h2
      simp at h2
    obtain ⟨r0, hr0⟩ : ∃ r0, cdf.getLast? = some r0 := by
      cases h : cdf.getLast? with
      | none => exact absurd (List.getLast?_eq_none_iff.mp h) hne
      | some r => exact ⟨r, rfl⟩
    refine ⟨regularRows club clubCols featCols r0
      (medianGrowth (cdf.map MRow.target)) years r0.target, ?_, ?_⟩
    · unfold clubFutureRows
      rw [if_neg (by omega), hr0]
    · rw [regularRows_predicted club clubCols featCols r0
        (medianGrowth (cdf.map MRow.target)) years r0.target j hj]
      rw [show lastTarget cdf = r0.target from by unfold lastTarget; rw [hr0]]
  · rw [show (clubFutureRows "A" ["Club_A"] [] true [2024, 2025]
          (sortedClubHist exTbl "A")).map (List.map FutureRow.predicted)
        = some [some (36000 * (1 + medianGrowth [(30000 : ℚ), 33000, 36000])),
            some (36000 * (1 + medianGrowth [(30000 : ℚ), 33000, 36000])
              * (1 + medianGrowth [(30000 : ℚ), 33000, 36000]))] from rfl,
      hm]
    norm_num
  · rw [abs_lt]
    constructor <;> norm_num

/-- Witness for C1 on the concrete three-season history. -/
theorem median_growth_forecast_witness :
    ∃ rows, clubFutureRows "A" ["Club_A"] [] true [2024, 2025] (sortedClubHist exTbl "A")
        = some rows ∧
      (rows.map FutureRow.predicted)[0]? =
        some (some (lastTarget (sortedClubHist exTbl "A") *
          (1 + medianGrowth ((sortedClubHist exTbl "A").map MRow.target)) ^ (0 + 1))) :=
  median_growth_forecast.1 exTbl "A" ["Club_A"] [] [2024, 2025] 0 (by decide) (by decide)
